import Mathlib

/-!
Verification of the setapp-cli install orchestration pipeline
(`src/bin/setapp.ts`), shallowly embedded in Lean 4.

The embedding mirrors the TypeScript source:
  * the catalog document shape and the two lookup maps
    (`appArchiveMap`, `appNameMap`, lines 169-190),
  * the per-token resolver loop (lines 217-243),
  * catalog caching and expiry computation (lines 73-127),
  * the per-target install pipeline `installApp` (lines 260-328),
  * sequential and parallel orchestration (lines 330-343),
  * the top-level command dispatch and exit codes.

External effects (fetch, execSync, file system) are modelled by
explicit environment records describing the outcome of each call.
JavaScript `Map` is modelled by an association list with
replace-on-set semantics; JavaScript string truthiness is modelled
by comparison with the empty string; `Number(...)` is modelled by
`jsNumber` below (decimal forms of the ECMAScript string-to-number
coercion, which suffice for the tokens considered here).
-/

namespace SetappCli

/-- One record of `relationships.versions.data`: carries `archive_url`. -/
structure VersionRec where
  archive_url : String
deriving DecidableEq, Repr

/-- One record of `relationships.applications.data`:
`id`, `attributes.name`, and the version list. -/
structure AppRec where
  id : Nat
  name : String
  versions : List VersionRec
deriving DecidableEq, Repr

/-- One record of `relationships.vendors.data`: its application list. -/
structure VendorRec where
  applications : List AppRec
deriving DecidableEq, Repr

/-- The catalog document, reduced to the fields the program reads
(`typedJson.data.relationships.vendors.data`). -/
structure CatalogDoc where
  vendors : List VendorRec
deriving DecidableEq, Repr

/-- The value stored in `appArchiveMap`: `{ url, name }`. -/
structure AppEntry where
  url : String
  name : String
deriving DecidableEq, Repr

/-- An element of `appsToInstall`: `{ ...app, id }`. -/
structure InstallTarget where
  url : String
  name : String
  id : Nat
deriving DecidableEq, Repr

/-- JavaScript `String.prototype.toLowerCase`, modelled on the
character list (the names involved are ASCII). -/
def jsToLower (s : String) : String :=
  ⟨s.data.map Char.toLower⟩

/-- JavaScript `String.prototype.trim`: strip whitespace from both
ends of the character list. -/
def jsTrim (l : List Char) : List Char :=
  ((l.dropWhile Char.isWhitespace).reverse.dropWhile Char.isWhitespace).reverse

/-- JavaScript `String.prototype.split` with a one-character
separator: every occurrence of the separator cuts, and the split of
the empty string is `[""]`. -/
def splitChAux (sep : Char) : List Char → List Char → List String
  | acc, [] => [⟨acc.reverse⟩]
  | acc, c :: rest =>
      if c = sep then ⟨acc.reverse⟩ :: splitChAux sep [] rest
      else splitChAux sep (c :: acc) rest

/-- `s.split(sep)` for a one-character separator `sep`. -/
def splitCh (sep : Char) (s : String) : List String :=
  splitChAux sep [] s.data

/-- `Map.set` on an association list: replace the binding in place when
the key is present (JavaScript `Map.set` keeps the original insertion
position), append otherwise. -/
def setKV {α β : Type} [DecidableEq α] (l : List (α × β)) (k : α) (v : β) :
    List (α × β) :=
  if l.any (fun p => p.1 = k) then
    l.map (fun p => if p.1 = k then (k, v) else p)
  else
    l ++ [(k, v)]

/-- `Map.get` on an association list. -/
def getKV {α β : Type} [DecidableEq α] (l : List (α × β)) (k : α) : Option β :=
  (l.find? (fun p => p.1 = k)).map (fun p => p.2)

/-- The two lookup maps built from the catalog (lines 169-190). -/
structure CatalogIndex where
  appArchiveMap : List (Nat × AppEntry)
  appNameMap : List (String × Nat)
deriving DecidableEq, Repr

/-- Processing of a single application record inside the vendor loop:
an application contributes entries only when `versions.length > 0`,
and the archive url taken is that of `versions[0]`. -/
def indexApp (idx : CatalogIndex) (app : AppRec) : CatalogIndex :=
  match app.versions with
  | [] => idx
  | v :: _ =>
      { appArchiveMap := setKV idx.appArchiveMap app.id ⟨v.archive_url, app.name⟩
        appNameMap := setKV idx.appNameMap (jsToLower app.name) app.id }

/-- The double loop over vendors and applications (lines 175-190). -/
def buildIndex (doc : CatalogDoc) : CatalogIndex :=
  doc.vendors.foldl
    (fun idx vendor => vendor.applications.foldl indexApp idx)
    ⟨[], []⟩

/-- Numeric value of a digit run. -/
def digitsVal (l : List Char) : Nat :=
  l.foldl (fun n c => n * 10 + (c.toNat - 48)) 0

/-- Decimal literal body (no sign): digits, optionally followed by a
dot and further digits; at least one digit overall. -/
def parseDec (l : List Char) : Option Rat :=
  let intPart := l.takeWhile Char.isDigit
  let rest := l.dropWhile Char.isDigit
  match rest with
  | [] => if intPart.isEmpty then none else some (mkRat (digitsVal intPart) 1)
  | '.' :: frac =>
      if frac.all Char.isDigit && !(intPart.isEmpty && frac.isEmpty) then
        some (mkRat (digitsVal intPart * 10 ^ frac.length + digitsVal frac)
          (10 ^ frac.length))
      else none
  | _ => none

/-- Model of the JavaScript `Number(string)` coercion restricted to
decimal forms: surrounding whitespace is trimmed, the empty string is
`0`, an optional sign precedes a decimal literal; anything else is
`NaN`, modelled as `none`.  (Hex/exponent/`Infinity` forms do not occur
among the tokens considered.) -/
def jsNumber (s : String) : Option Rat :=
  match jsTrim s.data with
  | [] => some 0
  | '-' :: rest => (parseDec rest).map (fun q => -q)
  | '+' :: rest => parseDec rest
  | l => parseDec l

/-- `appArchiveMap.get(appId)` where `appId` is the JavaScript number
produced by `Number(identifier)`: a hit requires the number to equal
one of the (natural) keys. -/
def numLookup (idx : CatalogIndex) (q : Rat) : Option AppEntry :=
  if q.den = 1 && 0 ≤ q.num then getKV idx.appArchiveMap q.num.toNat else none

/-- Outcome of resolving one identifier (loop body, lines 217-243). -/
inductive ResolveOutcome where
  | resolved (target : InstallTarget)
  | idNotFound (token : String)
  | nameNotFound (token : String)
  | ambiguous (token : String)
  | dropped (token : String)
deriving DecidableEq, Repr

/-- One iteration of the resolver loop (lines 217-243):

```ts
const appId = Number(identifier);
if (!isNaN(appId) && !nameFlag) {
  app = appArchiveMap.get(appId);
  if (!app) ... not found ... else push({ ...app, id: appId });
} else if (nameFlag) {
  const id = appNameMap.get(identifier.toLowerCase());
  if (!id) ... not found ...
  app = appArchiveMap.get(id);
  if (app) push({ ...app, id });
} else { ... invalid app id ... }
```

`if (!id)` is a JavaScript truthiness test, so a looked-up id of `0`
takes the not-found branch; the case where the name map hits but the
archive map misses pushes nothing and prints nothing (`dropped`). -/
def resolveOne (idx : CatalogIndex) (nameFlag : Bool) (identifier : String) :
    ResolveOutcome :=
  match jsNumber identifier, nameFlag with
  | some q, false =>
      match numLookup idx q with
      | none => .idNotFound identifier
      | some app => .resolved ⟨app.url, app.name, q.num.toNat⟩
  | none, false => .ambiguous identifier
  | _, true =>
      match getKV idx.appNameMap (jsToLower identifier) with
      | none => .nameNotFound identifier
      | some id =>
          if id = 0 then .nameNotFound identifier
          else
            match getKV idx.appArchiveMap id with
            | none => .dropped identifier
            | some app => .resolved ⟨app.url, app.name, id⟩

/-- The full resolver loop: failures only print, resolved targets are
pushed onto `appsToInstall`. -/
def resolveAll (idx : CatalogIndex) (nameFlag : Bool)
    (identifiers : List String) : List InstallTarget :=
  identifiers.filterMap (fun t =>
    match resolveOne idx nameFlag t with
    | .resolved target => some target
    | _ => none)

/-! ### Catalog caching and expiry (lines 63-127) -/

/-- The persisted cache file content the program reads back:
`{ data, expiry, ... }`.  `expiry` is `Option Nat` because the field
may be absent from the JSON (`cacheData.expiry` would be `undefined`).
`etag` and `lastModified` are persisted but never read back, so they
are omitted from the model. -/
structure CacheRecord where
  data : CatalogDoc
  expiry : Option Nat
deriving DecidableEq, Repr

/-- State of the cache file: `none` = file absent
(`fs.existsSync` false), `some none` = present but `JSON.parse`
throws (malformed), `some (some r)` = present and well formed. -/
abbrev CacheFileState := Option (Option CacheRecord)

/-- The `useCache` condition (line 79):
`cacheData.expiry && cacheData.expiry > now` — a JavaScript truthiness
test on `expiry` (so `0` or a missing field fails it) followed by the
comparison against `Date.now()`. -/
def cacheIsValid (cache : CacheFileState) (now : Nat) : Bool :=
  match cache with
  | some (some r) =>
      match r.expiry with
      | some e => e != 0 && decide (now < e)
      | none => false
  | _ => false

/-- Scan for the first position where the literal `max-age=` is
followed by at least one digit and take the maximal digit run there —
the semantics of `cacheControl.match(/max-age=(\d+)/)` followed by
`parseInt(maxAgeMatch[1], 10)` (lines 101-104). -/
def findMaxAge : List Char → Option Nat
  | [] => none
  | c :: rest =>
      let ds := ((c :: rest).drop 8).takeWhile Char.isDigit
      if "max-age=".toList.isPrefixOf (c :: rest) && !ds.isEmpty then
        some (digitsVal ds)
      else
        findMaxAge rest

/-- `max-age` extraction from a cache-control header string. -/
def parseMaxAge (s : String) : Option Nat :=
  findMaxAge s.toList

/-- Expiry computation (lines 95-117): start from
`maxAge = 14400` seconds, overridden by a parsed `max-age` directive
when the header is present and matches; `expiryTime = now + maxAge *
1000`; when the `expires` header is present and parses to a valid
date (`expiresMillis`), take the earlier of the two.  Times are epoch
milliseconds. -/
def computeExpiry (now : Nat) (cacheControl : Option String)
    (expiresMillis : Option Nat) : Nat :=
  let maxAge : Nat :=
    match cacheControl with
    | none => 14400
    | some cc =>
        match parseMaxAge cc with
        | some n => n
        | none => 14400
  let expiryTime := now + maxAge * 1000
  match expiresMillis with
  | some e => min expiryTime e
  | none => expiryTime

/-- Errors that abort the whole run during catalog acquisition:
a failed fetch / unparsable response body, or — because the
`fs.writeFileSync` on line 126 is not guarded by any `try` — a failed
cache write, which propagates as an uncaught exception. -/
inductive CliError where
  | catalogUnavailable
  | cacheWriteFailed
deriving DecidableEq, Repr

/-- Outcome of one network fetch attempt, as seen by the program:
`response = none` models `fetch`/`response.json()` throwing;
`cacheControl`/`expiresMillis` are the response headers (the latter
already parsed: `none` when the header is absent or `new Date(...)`
yields `NaN`); `writeOk` tells whether `fs.writeFileSync` on the cache
file succeeds. -/
structure FetchEnv where
  response : Option CatalogDoc
  cacheControl : Option String
  expiresMillis : Option Nat
  writeOk : Bool

/-- Result of catalog acquisition: how many remote fetches were
issued, what record (if any) was persisted, and the document or the
error that aborted the run. -/
structure FetchOutcome where
  fetches : Nat
  saved : Option CacheRecord
  result : Except CliError CatalogDoc

/-- The fetch path (lines 90-127): one `fetch`; a throwing
fetch/parse aborts (`catalogUnavailable`); otherwise the new record
is built with the computed expiry and written — an unguarded write
failure aborts the run (`cacheWriteFailed`). -/
def fetchFresh (now : Nat) (env : FetchEnv) : FetchOutcome :=
  match env.response with
  | none => ⟨1, none, .error .catalogUnavailable⟩
  | some doc =>
      let record : CacheRecord :=
        ⟨doc, some (computeExpiry now env.cacheControl env.expiresMillis)⟩
      if env.writeOk then ⟨1, some record, .ok doc⟩
      else ⟨1, none, .error .cacheWriteFailed⟩

/-- Catalog acquisition (lines 73-127): use the cached document when
the cache file holds a record passing the `useCache` test, otherwise
fetch. -/
def getCatalog (now : Nat) (cache : CacheFileState) (env : FetchEnv) :
    FetchOutcome :=
  match cache with
  | some (some r) =>
      if cacheIsValid (some (some r)) now then ⟨0, none, .ok r.data⟩
      else fetchFresh now env
  | _ => fetchFresh now env

/-! ### Per-target install pipeline (lines 260-328) -/

/-- The distinct `throw` sites of `installApp`'s body, in pipeline
order: the `curl` download, `mkdir`/`unzip` extraction, the (dead, see
`locating_zero_bundles_bug`) zero-bundle check, the `sudo mv`
placement, and the final `rm -rf` cleanup. -/
inductive InstallError where
  | downloadFailed
  | extractFailed
  | bundleNotFound
  | placementFailed
  | cleanupFailed
deriving DecidableEq, Repr

/-- The value returned from one `installApp` call:
`{ success, name, skipped?, error? }`.  The success paths set no
`error`; the skip path alone sets `skipped` (absent = `false`). -/
structure InstallResult where
  name : String
  success : Bool
  skipped : Bool
  error : Option InstallError
deriving DecidableEq, Repr

/-- Outcomes of the external commands one pipeline run performs.
`destDir` is the list of bundle names currently in
`/Applications/Setapp`; `foundApps` is the list of paths the
Locating `find` prints inside the extraction directory (one per
line); `movesOk b` tells whether `sudo mv` of bundle `b` succeeds. -/
structure InstallEnv where
  destDir : List String
  downloadOk : Bool
  mkdirOk : Bool
  unzipOk : Bool
  foundApps : List String
  movesOk : String → Bool
  cleanupOk : Bool

/-- Whether an existing bundle name matches the shell glob
`<appName>*.app` used by the Checking `find` (line 264): it starts
with the app name, ends in `.app`, and is long enough for the two
parts not to overlap. -/
def globMatches (appName bundle : String) : Bool :=
  appName.data.isPrefixOf bundle.data && ".app".data.isSuffixOf bundle.data &&
    decide (appName.data.length + 4 ≤ bundle.data.length)

/-- `find`'s stdout after `.toString().trim()`: the matched paths
joined by single newlines (the trailing newline trimmed away). -/
def joinLines : List String → String
  | [] => ""
  | [a] => a
  | a :: rest => a ++ "\n" ++ joinLines rest

/-- The Placing loop (lines 305-318): for each (non-empty) line of the
Locating `find` output, take the final path segment as the bundle
name; leave it untouched when a same-named bundle already exists at
the destination, otherwise `sudo mv` it there (appending it to the
destination listing); a failed move throws.  Returns the destination
listing reached and the error, if any. -/
def placeBundles (movesOk : String → Bool) :
    List String → List String → List String × Option InstallError
  | dest, [] => (dest, none)
  | dest, f :: rest =>
      if f = "" then placeBundles movesOk dest rest
      else
        let appName := (splitCh '/' f).getLastD ""
        if dest.contains appName then placeBundles movesOk dest rest
        else if movesOk appName then
          placeBundles movesOk (dest ++ [appName]) rest
        else (dest, some .placementFailed)

/-- Effects observable from one pipeline run, alongside its thrown
error or returned value: the number of `curl` invocations and the
destination-directory listing after the run. -/
structure InstallOutcome where
  result : Except InstallError InstallResult
  downloads : Nat
  destAfter : List String

/-- The body of `installApp` (lines 261-322), before the surrounding
`try`/`catch`:

  * Checking: `find` for `<name>*.app` in the destination; a
    non-empty (trimmed) output means skip with
    `{ success: true, skipped: true }` and no download.
  * Downloading / Extracting: `curl`, `mkdir -p`, `unzip -q`; an
    execSync failure throws.
  * Locating: `appFiles = output.trim().split("\n")`; note that for
    an empty output this is `[""]` (length 1), so the
    `appFiles.length === 0` guard cannot fire.
  * Placing: `placeBundles` above.
  * Cleanup: `rm -rf` of the temporaries; a failure throws.
  * Return `{ success: true, name }`. -/
def installSteps (env : InstallEnv) (app : InstallTarget) : InstallOutcome :=
  let existingApps := joinLines (env.destDir.filter (globMatches app.name))
  if existingApps != "" then
    ⟨.ok ⟨app.name, true, true, none⟩, 0, env.destDir⟩
  else if !env.downloadOk then ⟨.error .downloadFailed, 1, env.destDir⟩
  else if !env.mkdirOk then ⟨.error .extractFailed, 1, env.destDir⟩
  else if !env.unzipOk then ⟨.error .extractFailed, 1, env.destDir⟩
  else
    let appFiles := splitCh '\n' (joinLines env.foundApps)
    if appFiles.length = 0 then ⟨.error .bundleNotFound, 1, env.destDir⟩
    else
      match placeBundles env.movesOk env.destDir appFiles with
      | (dest, some e) => ⟨.error e, 1, dest⟩
      | (dest, none) =>
          if env.cleanupOk then ⟨.ok ⟨app.name, true, false, none⟩, 1, dest⟩
          else ⟨.error .cleanupFailed, 1, dest⟩

/-- `installApp` (lines 260-328): the whole body runs inside
`try`/`catch`, and any thrown error is converted into
`{ success: false, name, error }` for this target. -/
def installApp (env : InstallEnv) (app : InstallTarget) : InstallResult :=
  match (installSteps env app).result with
  | .ok r => r
  | .error e => ⟨app.name, false, false, some e⟩

/-! ### Orchestration (lines 330-343) -/

/-- Sequential mode: `for` loop awaiting each install in turn and
pushing its result. -/
def runSeq : List (InstallTarget × InstallEnv) → List InstallResult
  | [] => []
  | (app, env) :: rest => installApp env app :: runSeq rest

/-- Parallel mode: `Promise.all(appsToInstall.map(app =>
installApp(app)))` — `Promise.all` resolves positionally, so the
results array lines up with the input array. -/
def runPar (targets : List (InstallTarget × InstallEnv)) : List InstallResult :=
  targets.map (fun t => installApp t.2 t.1)

/-- The orchestration contract as the specification words it: one
pipeline run per target, results in input order. -/
def orchestrationSpec (targets : List (InstallTarget × InstallEnv)) :
    List InstallResult :=
  targets.map (fun t => installApp t.2 t.1)

/-- Mode dispatch on the `--parallel` flag. -/
def runOrchestrator (parallelFlag : Bool)
    (targets : List (InstallTarget × InstallEnv)) : List InstallResult :=
  if parallelFlag then runPar targets else runSeq targets

/-! ### Top-level run and exit codes -/

/-- Everything the top-level script observes in one run, after
argument parsing (which the specification scopes out): the command
word and identifier tokens, the two flags, the cache-file state, the
clock, the fetch environment, whether `/Applications/Setapp` already
exists and whether the `sudo mkdir -p` creating it would succeed, and
the external environment of the i-th pipeline run. -/
structure CliState where
  command : Option String
  identifiers : List String
  nameFlag : Bool
  parallelFlag : Bool
  cache : CacheFileState
  now : Nat
  fetch : FetchEnv
  dirExists : Bool
  mkdirOk : Bool
  installEnvs : Nat → InstallEnv

/-- The resolved targets paired with their pipeline environments, by
position. -/
def pairEnvs (st : CliState) (targets : List InstallTarget) :
    List (InstallTarget × InstallEnv) :=
  targets.enum.map (fun p => (p.2, st.installEnvs p.1))

/-- The exit code of one run of the script:

  * no command, or `install` with no identifier tokens: usage text and
    `process.exit(1)` (line 46-61);
  * catalog acquisition (lines 63-127): an uncaught throw — failed
    fetch, unparsable body, or failed cache write — ends the process
    with a non-zero code, modelled as 1;
  * the maps are built (lines 169-190), then the destination
    directory is created if absent; a failed `sudo mkdir -p` exits 1
    (lines 192-210);
  * `install`: zero resolved targets exits 1 (lines 245-248);
    otherwise the orchestrator runs and the script falls off the end:
    exit 0 whatever the individual results were;
  * `list`: exit 0;
  * any other command word: prints "Unknown command" and falls off
    the end of the script — exit 0 (lines 371-374, no
    `process.exit`). -/
def mainRun (st : CliState) : Nat :=
  match st.command with
  | none => 1
  | some cmd =>
      if cmd = "install" && st.identifiers.isEmpty then 1
      else
        match (getCatalog st.now st.cache st.fetch).result with
        | .error _ => 1
        | .ok doc =>
            let idx := buildIndex doc
            if !st.dirExists && !st.mkdirOk then 1
            else if cmd = "install" then
              let targets := resolveAll idx st.nameFlag st.identifiers
              if targets.isEmpty then 1
              else
                let _results :=
                  runOrchestrator st.parallelFlag (pairEnvs st targets)
                0
            else if cmd = "list" then 0
            else 0

/-! ### Helper lemmas -/

/-- Sequential orchestration is the positional map of the pipeline
over the target list. -/
theorem runSeq_eq_map (ts : List (InstallTarget × InstallEnv)) :
    runSeq ts = ts.map (fun t => installApp t.2 t.1) := by
  induction ts with
  | nil => rfl
  | cons h t ih => cases h; simp [runSeq, ih]

/-- A bundle matching the Checking glob is a non-empty name. -/
theorem globMatches_ne_empty {n b : String} (h : globMatches n b = true) :
    b ≠ "" := by
  have hlen : n.data.length + 4 ≤ b.data.length := by
    have h' := h
    simp only [globMatches, Bool.and_eq_true, decide_eq_true_eq] at h'
    exact h'.2
  intro he
  subst he
  rw [show ("" : String).data = [] from rfl] at hlen
  simp at hlen

/-- `joinLines` of a list containing a non-empty string is non-empty. -/
theorem joinLines_ne_empty {l : List String} {x : String}
    (hx : x ∈ l) (hne : x ≠ "") : joinLines l ≠ "" := by
  induction l with
  | nil => cases hx
  | cons a rest ih =>
    cases rest with
    | nil =>
        have hxa : x = a := by simpa using hx
        subst hxa
        simpa [joinLines] using hne
    | cons b rs =>
        intro he
        have hd := congrArg String.data he
        rw [show joinLines (a :: b :: rs) = a ++ "\n" ++ joinLines (b :: rs)
              from rfl] at hd
        rw [String.data_append, String.data_append,
          show ("\n" : String).data = ['\n'] from rfl,
          show ("" : String).data = [] from rfl] at hd
        simp at hd

/-- A fresh fetch issues exactly one remote request, whatever its
outcome. -/
theorem fetchFresh_fetches (now : Nat) (env : FetchEnv) :
    (fetchFresh now env).fetches = 1 := by
  obtain ⟨resp, cc, ex, w⟩ := env
  cases resp <;> cases w <;> rfl

/-- When the cache test fails, catalog acquisition takes the fetch
path. -/
theorem getCatalog_of_invalid (now : Nat) (cache : CacheFileState)
    (env : FetchEnv) (h : cacheIsValid cache now = false) :
    getCatalog now cache env = fetchFresh now env := by
  cases cache with
  | none => rfl
  | some c =>
      cases c with
      | none => rfl
      | some r => simp [getCatalog, h]

/-- Catalog acquisition errors out exactly when the cache test fails
and either the fetch itself fails or the subsequent cache write
fails. -/
theorem getCatalog_error_char (now : Nat) (cache : CacheFileState)
    (env : FetchEnv) :
    (∃ er, (getCatalog now cache env).result = Except.error er) ↔
      (cacheIsValid cache now = false ∧
        (env.response = none ∨ env.writeOk = false)) := by
  by_cases hv : cacheIsValid cache now = true
  · have hc : ∃ r : CacheRecord, cache = some (some r) := by
      cases cache with
      | none => simp [cacheIsValid] at hv
      | some c =>
          cases c with
          | none => simp [cacheIsValid] at hv
          | some r => exact ⟨r, rfl⟩
    obtain ⟨r, rfl⟩ := hc
    constructor
    · rintro ⟨er, her⟩
      rw [show getCatalog now (some (some r)) env
            = ⟨0, none, .ok r.data⟩ by simp [getCatalog, hv]] at her
      exact Except.noConfusion her
    · rintro ⟨hf, _⟩
      rw [hv] at hf
      exact Bool.noConfusion hf
  · have hv' : cacheIsValid cache now = false := by
      cases h : cacheIsValid cache now with
      | true => exact absurd h hv
      | false => rfl
    rw [getCatalog_of_invalid now cache env hv']
    obtain ⟨resp, cc, ex, w⟩ := env
    cases resp with
    | none => simpa [fetchFresh] using hv'
    | some doc =>
        cases w with
        | true => simp [fetchFresh]
        | false => simpa [fetchFresh] using hv'

/-! ### Claim theorems -/

/-- **C1** (confirmed): in both orchestration modes there is exactly
one `InstallResult` per input target, the result at each position is a
function of that target and its own environment alone (so one
target's failure cannot alter another's result or drop it), and any
error thrown inside a target's pipeline body is caught and converted
into a `success = false` result carrying that target's name. -/
theorem orchestrator_isolation (ts : List (InstallTarget × InstallEnv)) :
    (runSeq ts).length = ts.length ∧
    (runPar ts).length = ts.length ∧
    (∀ i : Nat, (runSeq ts)[i]? = (ts[i]?).map (fun t => installApp t.2 t.1)) ∧
    (∀ i : Nat, (runPar ts)[i]? = (ts[i]?).map (fun t => installApp t.2 t.1)) ∧
    (∀ (env : InstallEnv) (app : InstallTarget) (e : InstallError),
      (installSteps env app).result = .error e →
      installApp env app = ⟨app.name, false, false, some e⟩) := by
  refine ⟨?_, ?_, ?_, ?_, ?_⟩
  · rw [runSeq_eq_map]; simp
  · simp [runPar]
  · intro i; rw [runSeq_eq_map]; exact List.getElem?_map _ _ _
  · intro i; exact List.getElem?_map _ _ _
  · intro env app e h
    unfold installApp
    rw [h]

/-- Witness for `orchestrator_isolation`: a pipeline whose download
fails yields a caught, `success = false` result. -/
theorem orchestrator_isolation_witness :
    (installSteps ⟨[], false, true, true, [], fun _ => true, true⟩
        ⟨"u", "Foo", 7⟩).result = .error .downloadFailed ∧
    installApp ⟨[], false, true, true, [], fun _ => true, true⟩ ⟨"u", "Foo", 7⟩
        = ⟨"Foo", false, false, some .downloadFailed⟩ :=
  ⟨rfl,
   (orchestrator_isolation []).2.2.2.2
     ⟨[], false, true, true, [], fun _ => true, true⟩ ⟨"u", "Foo", 7⟩
     .downloadFailed rfl⟩

/-- **C2** (code bug): when the Locating `find` matches zero bundles
its trimmed output is `""`, and `"".split("\n")` is `[""]` — length
1, never 0 — so the `BundleNotFound` guard cannot fire and the
pipeline returns `success = true` (after one download) instead of the
`Failed`/`BundleNotFound` outcome the code's own `throw` message and
the specification intend. -/
theorem locating_zero_bundles_bug :
    (splitCh '\n' (joinLines [])).length = 1 ∧
    (installSteps ⟨[], true, true, true, [], fun _ => true, true⟩
        ⟨"http://x/a.zip", "Foo", 42⟩).downloads = 1 ∧
    installApp ⟨[], true, true, true, [], fun _ => true, true⟩
        ⟨"http://x/a.zip", "Foo", 42⟩ = ⟨"Foo", true, false, none⟩ :=
  ⟨rfl, rfl, rfl⟩

/-- **C9** (confirmed): when the destination directory already holds a
bundle matching `<name>*.app`, the pipeline returns
`success = true, skipped = true`, downloads nothing, leaves the
destination untouched — and therefore a second run against the
resulting state skips again with no download. -/
theorem install_skip_idempotent (env : InstallEnv) (app : InstallTarget)
    (b : String) (hb : b ∈ env.destDir) (hm : globMatches app.name b = true) :
    installSteps env app = ⟨.ok ⟨app.name, true, true, none⟩, 0, env.destDir⟩ ∧
    installApp env app = ⟨app.name, true, true, none⟩ ∧
    installSteps { env with destDir := (installSteps env app).destAfter } app
      = ⟨.ok ⟨app.name, true, true, none⟩, 0, env.destDir⟩ := by
  have hmem : b ∈ env.destDir.filter (globMatches app.name) :=
    List.mem_filter.mpr ⟨hb, hm⟩
  have hjoin : joinLines (env.destDir.filter (globMatches app.name)) ≠ "" :=
    joinLines_ne_empty hmem (globMatches_ne_empty hm)
  have hcond : (joinLines (env.destDir.filter (globMatches app.name)) != "")
      = true := bne_iff_ne.mpr hjoin
  have h1 : installSteps env app
      = ⟨.ok ⟨app.name, true, true, none⟩, 0, env.destDir⟩ := by
    unfold installSteps
    simp [hcond]
  have hdest : (installSteps env app).destAfter = env.destDir := by rw [h1]
  have henv : ({ env with destDir := (installSteps env app).destAfter })
      = env := by rw [hdest]
  refine ⟨h1, ?_, ?_⟩
  · unfold installApp
    rw [h1]
  · rw [henv, h1]

/-- Witness for `install_skip_idempotent`: a destination already
holding `Foo.app` makes installing `Foo` a download-free skip. -/
theorem install_skip_idempotent_witness :
    installSteps ⟨["Foo.app"], true, true, true, [], fun _ => true, true⟩
        ⟨"u", "Foo", 42⟩ = ⟨.ok ⟨"Foo", true, true, none⟩, 0, ["Foo.app"]⟩ ∧
    installApp ⟨["Foo.app"], true, true, true, [], fun _ => true, true⟩
        ⟨"u", "Foo", 42⟩ = ⟨"Foo", true, true, none⟩ :=
  ⟨(install_skip_idempotent ⟨["Foo.app"], true, true, true, [], fun _ => true, true⟩
      ⟨"u", "Foo", 42⟩ "Foo.app" (by decide) (by decide)).1,
   (install_skip_idempotent ⟨["Foo.app"], true, true, true, [], fun _ => true, true⟩
      ⟨"u", "Foo", 42⟩ "Foo.app" (by decide) (by decide)).2.1⟩

/-- **C10** (confirmed): both orchestration modes equal the
positional map of the pipeline over the targets, hence they agree
with each other, and the parallel mode's output order matches input
order (`Promise.all` resolves positionally). -/
theorem parallel_matches_sequential (ts : List (InstallTarget × InstallEnv)) :
    runSeq ts = orchestrationSpec ts ∧
    runPar ts = orchestrationSpec ts ∧
    runPar ts = runSeq ts ∧
    ∀ i : Nat, (runPar ts)[i]? = (ts[i]?).map (fun t => installApp t.2 t.1) := by
  refine ⟨runSeq_eq_map ts, rfl, ?_, ?_⟩
  · rw [runSeq_eq_map]; rfl
  · intro i; exact List.getElem?_map _ _ _

/-- **C7** (corrected, counterexample): a token that does not parse as
an *integer* but does parse as a JavaScript *number* — here `"3.5"` —
is, without the name flag, looked up in the id map and misses
(`IdNotFound`), not reported as `AmbiguousToken` as the claim
states. -/
theorem resolver_nonnumeric_cex :
    resolveOne ⟨[], []⟩ false "3.5" = .idNotFound "3.5" ∧
    resolveOne ⟨[], []⟩ false "3.5" ≠ .ambiguous "3.5" :=
  ⟨by decide, by decide⟩

/-- **C7** (amended): the resolver's decision table, with "parses as
an integer" amended to "parses as a number under the `Number`
coercion": with the name flag, a name-map miss yields `NameNotFound`;
without it, a token parsing as a number is looked up in the id map
and a miss yields `IdNotFound`; a token not parsing as a number
yields `AmbiguousToken`. -/
theorem resolver_decision_table (idx : CatalogIndex) (nameFlag : Bool)
    (t : String) :
    (nameFlag = true → getKV idx.appNameMap (jsToLower t) = none →
        resolveOne idx nameFlag t = .nameNotFound t) ∧
    (nameFlag = false → ∀ q : Rat, jsNumber t = some q →
        numLookup idx q = none →
        resolveOne idx nameFlag t = .idNotFound t) ∧
    (nameFlag = false → jsNumber t = none →
        resolveOne idx nameFlag t = .ambiguous t) := by
  refine ⟨?_, ?_, ?_⟩
  · rintro rfl hmiss
    cases hq : jsNumber t <;> simp [resolveOne, hq, hmiss]
  · rintro rfl q hq hlook
    simp [resolveOne, hq, hlook]
  · rintro rfl hq
    simp [resolveOne, hq]

/-- Witness for `resolver_decision_table`, on the specification's own
examples: an unknown name, the id `999999` absent from the index, and
a non-numeric token without the name flag. -/
theorem resolver_decision_table_witness :
    resolveOne ⟨[], []⟩ true "Foo" = .nameNotFound "Foo" ∧
    resolveOne ⟨[], []⟩ false "999999" = .idNotFound "999999" ∧
    resolveOne ⟨[], []⟩ false "not-a-number" = .ambiguous "not-a-number" :=
  ⟨(resolver_decision_table ⟨[], []⟩ true "Foo").1 rfl (by decide),
   (resolver_decision_table ⟨[], []⟩ false "999999").2.1 rfl 999999
     (by decide) (by decide),
   (resolver_decision_table ⟨[], []⟩ false "not-a-number").2.2 rfl (by decide)⟩

/-- **C8** (corrected, counterexample): for a catalog whose only
application has id `0`, the built index does contain the entry and
its lowercase name does map to `0`, yet resolving the name misses:
`appNameMap.get` returns `0`, which the truthiness test `if (!id)`
treats as a miss, yielding `NameNotFound` instead of the entry. -/
theorem resolver_roundtrip_cex :
    getKV (buildIndex ⟨[⟨[⟨0, "a", [⟨"u"⟩]⟩]⟩]⟩).appArchiveMap 0
        = some ⟨"u", "a"⟩ ∧
    getKV (buildIndex ⟨[⟨[⟨0, "a", [⟨"u"⟩]⟩]⟩]⟩).appNameMap "a" = some 0 ∧
    resolveOne (buildIndex ⟨[⟨[⟨0, "a", [⟨"u"⟩]⟩]⟩]⟩) true "a"
        = .nameNotFound "a" :=
  ⟨by decide, by decide, by decide⟩

/-- **C8** (amended): in a built index, an entry's id resolves (name
flag off) back to that entry for any token whose `Number` value is
the id — the decimal id string in particular; and (name flag on) any
case variant of its name resolves back to that entry whenever the
entry is the one its lowercase name maps to (last entry with that
lowercase name wins) **and its id is non-zero** (the truthiness check
`if (!id)` loses id `0`). -/
theorem resolver_roundtrip (doc : CatalogDoc) (s t : String) (id : Nat)
    (e : AppEntry) :
    (getKV (buildIndex doc).appArchiveMap id = some e →
        jsNumber s = some ((id : Nat) : Rat) →
        resolveOne (buildIndex doc) false s = .resolved ⟨e.url, e.name, id⟩) ∧
    (getKV (buildIndex doc).appArchiveMap id = some e →
        getKV (buildIndex doc).appNameMap (jsToLower e.name) = some id →
        id ≠ 0 →
        jsToLower t = jsToLower e.name →
        resolveOne (buildIndex doc) true t = .resolved ⟨e.url, e.name, id⟩) := by
  constructor
  · intro harch hnum
    simp [resolveOne, hnum, numLookup, Rat.den_natCast, Rat.num_natCast,
      Int.toNat_natCast, harch]
  · intro harch hname hid ht
    cases hq : jsNumber t <;>
      simp [resolveOne, hq, ht, hname, hid, harch]

/-- Witness for `resolver_roundtrip`: the entry `{id: 42, name:
"Foo"}` is recovered from the token `"42"` by id and from the case
variant `"FOO"` by name. -/
theorem resolver_roundtrip_witness :
    resolveOne (buildIndex ⟨[⟨[⟨42, "Foo", [⟨"u"⟩]⟩]⟩]⟩) false "42"
        = .resolved ⟨"u", "Foo", 42⟩ ∧
    resolveOne (buildIndex ⟨[⟨[⟨42, "Foo", [⟨"u"⟩]⟩]⟩]⟩) true "FOO"
        = .resolved ⟨"u", "Foo", 42⟩ :=
  ⟨(resolver_roundtrip ⟨[⟨[⟨42, "Foo", [⟨"u"⟩]⟩]⟩]⟩ "42" "FOO" 42
      ⟨"u", "Foo"⟩).1 (by decide) (by decide),
   (resolver_roundtrip ⟨[⟨[⟨42, "Foo", [⟨"u"⟩]⟩]⟩]⟩ "42" "FOO" 42
      ⟨"u", "Foo"⟩).2 (by decide) (by decide) (by decide) (by decide)⟩

/-- **C5** (confirmed): the computed expiry is the minimum of
(fetch time + max-age · 1000 ms, with max-age defaulting to 14400
when the cache-control header is absent or carries no parsable
directive) and the parsed `Expires` timestamp when available; with
only max-age it is fetch time + max-age; and concretely, with
`max-age=7200` and an `Expires` one hour after fetch time the earlier
bound — fetch time + 1 h — wins. -/
theorem expiry_computation (now e n : Nat) (cc : String) :
    (parseMaxAge cc = some n →
        computeExpiry now (some cc) (some e) = min (now + n * 1000) e) ∧
    (parseMaxAge cc = none →
        computeExpiry now (some cc) (some e) = min (now + 14400 * 1000) e) ∧
    computeExpiry now none (some e) = min (now + 14400 * 1000) e ∧
    (parseMaxAge cc = some n →
        computeExpiry now (some cc) none = now + n * 1000) ∧
    computeExpiry now none none = now + 14400 * 1000 ∧
    parseMaxAge "max-age=7200" = some 7200 ∧
    computeExpiry now (some "max-age=7200") (some (now + 3600000))
        = now + 3600000 := by
  refine ⟨?_, ?_, rfl, ?_, rfl, by decide, ?_⟩
  · intro h; simp [computeExpiry, h]
  · intro h; simp [computeExpiry, h]
  · intro h; simp [computeExpiry, h]
  · have hma : parseMaxAge "max-age=7200" = some 7200 := by decide
    simp only [computeExpiry, hma]
    rw [min_eq_right (by omega)]

/-- Witness for `expiry_computation`: concrete headers exercising the
parsable-directive and no-directive branches. -/
theorem expiry_computation_witness :
    computeExpiry 1000 (some "max-age=7200") (some 1000000)
        = min (1000 + 7200 * 1000) 1000000 ∧
    computeExpiry 1000 (some "bogus") (some 99999999)
        = min (1000 + 14400 * 1000) 99999999 ∧
    computeExpiry 5 (some "max-age=7200") none = 5 + 7200 * 1000 :=
  ⟨(expiry_computation 1000 1000000 7200 "max-age=7200").1 (by decide),
   (expiry_computation 1000 99999999 7200 "bogus").2.1 (by decide),
   (expiry_computation 5 0 7200 "max-age=7200").2.2.2.1 (by decide)⟩

/-- **C4** (corrected, counterexample): at a concrete cache-miss run
where the fetch succeeds (document in hand) but the cache write
fails, `getCatalog` does *not* proceed with the freshly fetched
document: the unguarded `fs.writeFileSync` throw aborts the
acquisition with `cacheWriteFailed`. -/
theorem cache_write_failure_cex :
    (getCatalog 0 none ⟨some ⟨[]⟩, none, none, false⟩).result
        = .error .cacheWriteFailed ∧
    (getCatalog 0 none ⟨some ⟨[]⟩, none, none, false⟩).result ≠ .ok ⟨[]⟩ :=
  ⟨rfl, fun h => Except.noConfusion h⟩

/-- **C4** (amended): on every cache-miss run whose fetch succeeds
but whose cache write fails, the run aborts with `cacheWriteFailed`
— nothing is persisted and the freshly fetched document is *not*
returned (the write on line 126 is not guarded by any `try`). -/
theorem cache_write_failure_aborts (now : Nat) (cache : CacheFileState)
    (env : FetchEnv) (doc : CatalogDoc)
    (hv : cacheIsValid cache now = false)
    (hr : env.response = some doc) (hw : env.writeOk = false) :
    getCatalog now cache env = ⟨1, none, .error .cacheWriteFailed⟩ := by
  rw [getCatalog_of_invalid now cache env hv]
  unfold fetchFresh
  rw [hr]
  simp [hw]

/-- Witness for `cache_write_failure_aborts` at an absent cache file
and a successful fetch of the empty document. -/
theorem cache_write_failure_aborts_witness :
    getCatalog 7 none ⟨some ⟨[]⟩, some "max-age=60", none, false⟩
      = ⟨1, none, .error .cacheWriteFailed⟩ :=
  cache_write_failure_aborts 7 none ⟨some ⟨[]⟩, some "max-age=60", none, false⟩
    ⟨[]⟩ rfl rfl rfl

/-- **C6** (confirmed): a well-formed cache record whose expiry lies
strictly in the future is served from cache with no remote fetch; an
absent file, an unparsable file, a record without an expiry field, or
an expiry at or before `now` all lead to exactly one remote fetch. -/
theorem catalog_cache_behavior (now : Nat) (cache : CacheFileState)
    (env : FetchEnv) :
    (∀ (r : CacheRecord) (e : Nat),
        cache = some (some r) → r.expiry = some e → now < e →
        getCatalog now cache env = ⟨0, none, .ok r.data⟩) ∧
    ((cache = none ∨ cache = some none ∨
        (∃ r : CacheRecord, cache = some (some r) ∧
          (r.expiry = none ∨ ∃ e : Nat, r.expiry = some e ∧ e ≤ now))) →
      (getCatalog now cache env).fetches = 1) := by
  constructor
  · rintro r e rfl hre h
    have he0 : e ≠ 0 := by omega
    have hv : cacheIsValid (some (some r)) now = true := by
      have hstep : cacheIsValid (some (some r)) now
          = (match r.expiry with
             | some e => e != 0 && decide (now < e)
             | none => false) := rfl
      rw [hstep, hre]
      simp [he0, h]
    simp [getCatalog, hv]
  · intro hcase
    have hv : cacheIsValid cache now = false := by
      rcases hcase with rfl | rfl | ⟨r, rfl, hre⟩
      · rfl
      · rfl
      · have hstep : cacheIsValid (some (some r)) now
            = (match r.expiry with
               | some e => e != 0 && decide (now < e)
               | none => false) := rfl
        rcases hre with hre | ⟨e, hre, hle⟩
        · rw [hstep, hre]
        · rw [hstep, hre]
          have hnl : ¬ now < e := by omega
          simp [hnl]
    rw [getCatalog_of_invalid now cache env hv]
    exact fetchFresh_fetches now env

/-- Witness for `catalog_cache_behavior`: a record expiring at 5 is
served from cache at time 3, and an absent cache file causes exactly
one fetch. -/
theorem catalog_cache_behavior_witness :
    getCatalog 3 (some (some ⟨⟨[]⟩, some 5⟩)) ⟨none, none, none, true⟩
        = ⟨0, none, .ok ⟨[]⟩⟩ ∧
    (getCatalog 3 none ⟨none, none, none, true⟩).fetches = 1 :=
  ⟨(catalog_cache_behavior 3 (some (some ⟨⟨[]⟩, some 5⟩))
      ⟨none, none, none, true⟩).1 ⟨⟨[]⟩, some 5⟩ 5 rfl rfl (by omega),
   (catalog_cache_behavior 3 none ⟨none, none, none, true⟩).2 (Or.inl rfl)⟩

/-- **C3** (corrected, counterexample): an unrecognized command name
(`"status"`, neither absent nor `install` nor `list`) prints its
"unknown command" message and falls off the end of the script —
exiting **zero**, where the claim demands a non-zero exit. -/
theorem exit_code_unknown_command_cex :
    mainRun ⟨some "status", [], false, false, some (some ⟨⟨[]⟩, some 1⟩), 0,
        ⟨none, none, none, true⟩, true, true,
        fun _ => ⟨[], true, true, true, [], fun _ => true, true⟩⟩ = 0 ∧
    some "status" ≠ (none : Option String) ∧
    "status" ≠ "install" ∧ "status" ≠ "list" :=
  ⟨rfl, by decide, by decide, by decide⟩

/-- **C3** (amended): the exit code is non-zero exactly when the run
fails to complete — no command, `install` with no tokens, catalog
fetch failure, cache-write failure after a fetch, destination
directory creation failure, or `install` resolving zero targets; a
run that completes exits zero whatever the per-target outcomes, and
an unrecognized command name *completes* (message, exit zero). -/
theorem exit_code_characterization (st : CliState) :
    mainRun st ≠ 0 ↔
      (st.command = none ∨
       (st.command = some "install" ∧ st.identifiers = []) ∨
       (cacheIsValid st.cache st.now = false ∧ st.fetch.response = none) ∨
       (cacheIsValid st.cache st.now = false ∧ st.fetch.response ≠ none ∧
          st.fetch.writeOk = false) ∨
       (st.dirExists = false ∧ st.mkdirOk = false) ∨
       (st.command = some "install" ∧
          ∃ doc : CatalogDoc,
            (getCatalog st.now st.cache st.fetch).result = .ok doc ∧
            resolveAll (buildIndex doc) st.nameFlag st.identifiers = [])) := by
  obtain ⟨cmd, ids, nf, pf, cache, now, fenv, de, mk, envs⟩ := st
  dsimp only
  cases cmd with
  | none => simp [mainRun]
  | some c =>
    have hchar := getCatalog_error_char now cache fenv
    by_cases hc : c = "install"
    · subst hc
      by_cases hi : ids = []
      · subst hi
        simp [mainRun]
      · have hie : ids.isEmpty = false := by
          cases ids with
          | nil => exact absurd rfl hi
          | cons a l => rfl
        rcases hg : (getCatalog now cache fenv).result with er | doc
        · have hrhs : cacheIsValid cache now = false ∧
              (fenv.response = none ∨ fenv.writeOk = false) :=
            hchar.mp ⟨er, hg⟩
          have hmain : mainRun ⟨some "install", ids, nf, pf, cache, now,
              fenv, de, mk, envs⟩ = 1 := by
            simp [mainRun, hie, hg]
          rw [hmain]
          refine iff_of_true one_ne_zero ?_
          by_cases hresp : fenv.response = none
          · exact Or.inr (Or.inr (Or.inl ⟨hrhs.1, hresp⟩))
          · rcases hrhs.2 with h | h
            · exact absurd h hresp
            · exact Or.inr (Or.inr (Or.inr (Or.inl ⟨hrhs.1, hresp, h⟩)))
        · have hok : ¬ (cacheIsValid cache now = false ∧
              (fenv.response = none ∨ fenv.writeOk = false)) := by
            rw [← hchar]
            rintro ⟨er, her⟩
            rw [hg] at her
            exact Except.noConfusion her
          by_cases hd : de = false ∧ mk = false
          · obtain ⟨rfl, rfl⟩ := hd
            have hmain : mainRun ⟨some "install", ids, nf, pf, cache, now,
                fenv, false, false, envs⟩ = 1 := by
              simp [mainRun, hie, hg]
            rw [hmain]
            exact iff_of_true one_ne_zero
              (Or.inr (Or.inr (Or.inr (Or.inr (Or.inl ⟨rfl, rfl⟩)))))
          · have hdc : (!de && !mk) = false := by
              cases de <;> cases mk <;> simp_all
            by_cases ht : resolveAll (buildIndex doc) nf ids = []
            · have hte : (resolveAll (buildIndex doc) nf ids).isEmpty
                  = true := by rw [ht]; rfl
              have hmain : mainRun ⟨some "install", ids, nf, pf, cache, now,
                  fenv, de, mk, envs⟩ = 1 := by
                simp [mainRun, hie, hg, hdc, hte]
              rw [hmain]
              exact iff_of_true one_ne_zero
                (Or.inr (Or.inr (Or.inr (Or.inr (Or.inr ⟨rfl, doc, rfl, ht⟩)))))
            · have hte : (resolveAll (buildIndex doc) nf ids).isEmpty
                  = false := by
                cases hrt : resolveAll (buildIndex doc) nf ids with
                | nil => exact absurd hrt ht
                | cons a l => rfl
              have hmain : mainRun ⟨some "install", ids, nf, pf, cache, now,
                  fenv, de, mk, envs⟩ = 0 := by
                simp [mainRun, hie, hg, hdc, hte]
              rw [hmain]
              refine iff_of_false (fun h => h rfl) ?_
              rintro (h | ⟨_, h⟩ | h34 | h34 | ⟨hde, hmk⟩ |
                ⟨_, doc', hdoc', ht'⟩)
              · exact Option.noConfusion h
              · exact hi h
              · exact hok ⟨h34.1, Or.inl h34.2⟩
              · exact hok ⟨h34.1, Or.inr h34.2.2⟩
              · exact hd ⟨hde, hmk⟩
              · injection hdoc' with hdd
                subst hdd
                exact ht ht'
    · have hce : decide (c = "install") = false := by
        simp [hc]
      rcases hg : (getCatalog now cache fenv).result with er | doc
      · have hrhs : cacheIsValid cache now = false ∧
            (fenv.response = none ∨ fenv.writeOk = false) :=
          hchar.mp ⟨er, hg⟩
        have hmain : mainRun ⟨some c, ids, nf, pf, cache, now,
            fenv, de, mk, envs⟩ = 1 := by
          simp [mainRun, hce, hg]
        rw [hmain]
        refine iff_of_true one_ne_zero ?_
        by_cases hresp : fenv.response = none
        · exact Or.inr (Or.inr (Or.inl ⟨hrhs.1, hresp⟩))
        · rcases hrhs.2 with h | h
          · exact absurd h hresp
          · exact Or.inr (Or.inr (Or.inr (Or.inl ⟨hrhs.1, hresp, h⟩)))
      · have hok : ¬ (cacheIsValid cache now = false ∧
            (fenv.response = none ∨ fenv.writeOk = false)) := by
          rw [← hchar]
          rintro ⟨er, her⟩
          rw [hg] at her
          exact Except.noConfusion her
        by_cases hd : de = false ∧ mk = false
        · obtain ⟨rfl, rfl⟩ := hd
          have hmain : mainRun ⟨some c, ids, nf, pf, cache, now,
              fenv, false, false, envs⟩ = 1 := by
            simp [mainRun, hce, hg]
          rw [hmain]
          exact iff_of_true one_ne_zero
            (Or.inr (Or.inr (Or.inr (Or.inr (Or.inl ⟨rfl, rfl⟩)))))
        · have hdc : (!de && !mk) = false := by
            cases de <;> cases mk <;> simp_all
          have hmain : mainRun ⟨some c, ids, nf, pf, cache, now,
              fenv, de, mk, envs⟩ = 0 := by
            simp [mainRun, hce, hg, hdc, hc]
          rw [hmain]
          refine iff_of_false (fun h => h rfl) ?_
          rintro (h | ⟨h, _⟩ | h34 | h34 | ⟨hde, hmk⟩ | ⟨h, _⟩)
          · exact Option.noConfusion h
          · exact hc (Option.some_injective _ h)
          · exact hok ⟨h34.1, Or.inl h34.2⟩
          · exact hok ⟨h34.1, Or.inr h34.2.2⟩
          · exact hd ⟨hde, hmk⟩
          · exact hc (Option.some_injective _ h)

/-- Witness for `exit_code_characterization`: a run with no command
exits non-zero, and a completing `list` run exits zero. -/
theorem exit_code_characterization_witness :
    mainRun ⟨none, [], false, false, some (some ⟨⟨[]⟩, some 1⟩), 0,
        ⟨none, none, none, true⟩, true, true,
        fun _ => ⟨[], true, true, true, [], fun _ => true, true⟩⟩ ≠ 0 ∧
    mainRun ⟨some "list", [], false, false, some (some ⟨⟨[]⟩, some 1⟩), 0,
        ⟨none, none, none, true⟩, true, true,
        fun _ => ⟨[], true, true, true, [], fun _ => true, true⟩⟩ = 0 :=
  ⟨(exit_code_characterization ⟨none, [], false, false,
      some (some ⟨⟨[]⟩, some 1⟩), 0, ⟨none, none, none, true⟩, true, true,
      fun _ => ⟨[], true, true, true, [], fun _ => true, true⟩⟩).mpr
      (Or.inl rfl),
   rfl⟩

end SetappCli
